import Mathlib

/-!
# Verification of the image-tagging GUI main window

A shallow embedding of `image-tagging-gui/main_window.py` and of the model
components it wires together.  The main window's own logic (signal
connections, `load_directory`, `select_and_load_directory`, `closeEvent`,
`update_image_list_model_tags`, `set_font_size`, `restore`) is translated
directly from the source.  The model classes it instantiates
(`ImageListModel`, `TagCounterModel`, `ImageTagListModel`, `ImageTagsEditor`,
`ImageViewer`) and the settings store are not part of the source tree here;
their behaviour is modelled from the specification and is marked as such on
each definition.

The GUI is single-threaded and event-driven: every Qt signal emission runs
its connected slots synchronously, in connection order, before control
returns to the emitter.  We model the application as a state machine: an
`AppState` record, a family of user-level `Event`s, and a `step` function
that performs each event's synchronous slot cascade and additionally returns
the ordered list of observable `Effect`s produced along the way (settings
reads/writes, model reloads, selection changes, widget switches, ...).
-/

namespace TagGui

/-- A value stored in the settings store.  The program stores strings
(`directory_path`), integers (`image_index`, `font_size`) and opaque byte
blobs (`geometry`, `window_state`). -/
inductive SettingsValue
  | str : String → SettingsValue
  | int : Int → SettingsValue
  | blob : List Nat → SettingsValue
deriving DecidableEq, Repr

/-- Modelled from the spec: the settings store is a "process-wide key-value
persistence with `contains(key)`, `value(key)`, `setValue(key, value)`".
We model it as an association list from keys to values. -/
def Settings := List (String × SettingsValue)
deriving DecidableEq, Repr

/-- Modelled from the spec: `contains(key)` of the settings store. -/
def Settings.containsKey (s : Settings) (k : String) : Bool :=
  (show List (String × SettingsValue) from s).any (fun p => p.1 == k)

/-- Modelled from the spec: `value(key)` of the settings store.  A missing
key yields `none` (Python `QSettings.value` returns `None`). -/
def Settings.valueOf (s : Settings) (k : String) : Option SettingsValue :=
  ((show List (String × SettingsValue) from s).find? (fun p => p.1 == k)).map (·.2)

/-- Modelled from the spec: `setValue(key, value)` of the settings store. -/
def Settings.setValue (s : Settings) (k : String) (v : SettingsValue) : Settings :=
  show List (String × SettingsValue) from
    (k, v) :: (show List (String × SettingsValue) from s).filter (fun p => p.1 != k)

/-- Python's `int(...)` applied to a settings value: integers pass through,
strings are parsed (`int('42')`), anything else (including a missing value,
i.e. `int(None)`) raises, which we model as `none`. -/
def pyInt : Option SettingsValue → Option Int
  | some (.int n) => some n
  | some (.str str) => str.toInt?
  | _ => none

/-- Python's `str(...)` / `Path(...)` round-trip applied to a settings value,
used for `directory_path` (always stored via `str(path)`, so the `.str` case
is the one that occurs). -/
def pyStr : SettingsValue → String
  | .str s => s
  | .int n => toString n
  | .blob _ => ""

/-- One image of the loaded directory: its path and its ordered tag list.
Modelled from the spec: "Image Entry: {path: file path, tags: ordered
sequence of strings}". -/
structure ImageEntry where
  path : String
  tags : List String
deriving DecidableEq, Repr

/-- The file system seen through directory listing: a map from directory
path to the ordered list of image entries discovered there.  A directory
not in the map lists as empty ("missing directory yields an empty list"). -/
def FileSystem := List (String × List ImageEntry)

/-- Directory listing: the image entries of `path`, empty when absent. -/
def FileSystem.listDir (fs : FileSystem) (path : String) : List ImageEntry :=
  (((show List (String × List ImageEntry) from fs).find?
      (fun p => p.1 == path)).map (·.2)).getD []

/-- Which widget the central `QStackedWidget` currently shows. -/
inductive CentralWidget
  | loadDirectoryWidget
  | imageViewer
deriving DecidableEq, Repr

/-- Observable effects, in program order, produced by a slot cascade. -/
inductive Effect
  | readSetting (key : String)
  | setSetting (key : String) (v : SettingsValue)
  | modelReload (path : String)
  | clearSelection
  | setSelection (row : Int)
  | showViewer
  | viewerLoad (row : Int)
  | editorLoad (row : Int)
  | recount
  | restoreGeometry
  | showMaximized
  | restoreWindowState
  | setFont (size : Int)
  | baseClose
deriving DecidableEq, Repr

/-- The whole mutable state of the application. -/
structure AppState where
  /-- the settings store -/
  settings : Settings
  /-- `image_list_model.images`: the entries of the loaded directory -/
  images : List ImageEntry
  /-- `tag_counter_model`: the tag → occurrence-count table -/
  tagCounts : List (String × Nat)
  /-- `image_tag_list_model.stringList()`: the editor's tag list -/
  editorTags : List String
  /-- `image_tags_editor.image_index`: the image the editor's list belongs to -/
  editorIndex : Int
  /-- the selection model's current index row; `-1` when nothing is selected -/
  currentRow : Int
  /-- which page the central stacked widget shows -/
  centralWidget : CentralWidget
  /-- the row whose image the viewer last loaded; `-1` initially -/
  viewerRow : Int
  /-- the application font size, once set -/
  fontSize : Option Int
deriving DecidableEq, Repr

/-- `QAbstractListModel.index(row)`: valid exactly when `0 ≤ row < rowCount`,
otherwise the invalid index, whose row is `-1`. -/
def modelIndexRow (images : List ImageEntry) (row : Int) : Int :=
  if 0 ≤ row ∧ row < images.length then row else -1

/-- The tags of the image entry at `row`, or `[]` when `row` is not a valid
index (in particular for the invalid index `-1`). -/
def entryTagsAt (images : List ImageEntry) (row : Int) : List String :=
  if 0 ≤ row then (((images.get? row.toNat).map ImageEntry.tags).getD []) else []

/-- Add one occurrence of tag `t` to a count table. -/
def bumpTag : List (String × Nat) → String → List (String × Nat)
  | [], t => [(t, 1)]
  | (u, n) :: rest, t =>
      if u == t then (u, n + 1) :: rest else (u, n) :: bumpTag rest t

/-- Modelled from the spec: `TagCounterModel.count_tags(images)` rebuilds the
"derived aggregate mapping tag string → occurrence count across all images",
"fully recomputed (not incrementally maintained)". -/
def countTags (images : List ImageEntry) : List (String × Nat) :=
  ((images.map ImageEntry.tags).flatten).foldl bumpTag []

/-- Look a tag's count up in the table; absent tags count 0. -/
def tableCount (table : List (String × Nat)) (t : String) : Nat :=
  ((table.find? (fun p => p.1 == t)).map (·.2)).getD 0

/-- Replace the tag list of the entry at position `i`, leaving the rest of
the list (and the entry's path) unchanged. -/
def setTagsAt : List ImageEntry → Nat → List String → List ImageEntry
  | [], _, _ => []
  | e :: rest, 0, tags => { e with tags := tags } :: rest
  | e :: rest, Nat.succ i, tags => e :: setTagsAt rest i tags

/-- The slot connected to `image_list_model.dataChanged`
(`main_window.py` lines 57-59): recompute the tag counter over the entire
current image list (`self.tag_counter_model.count_tags(self.image_list_model.images)`). -/
def imageListDataChanged (s : AppState) : AppState × List Effect :=
  ({ s with tagCounts := countTags s.images }, [.recount])

/-- Modelled from the spec: `ImageListModel.update_tags(index, tags)`
("per-index tag update" with "change notification on every mutation").
A valid index replaces that entry's tags and emits `dataChanged`, which
synchronously runs the connected recount slot; the spec says nothing about
out-of-range indices, which we model as a no-op. -/
def ImageListModel.update_tags (s : AppState) (idx : Int) (tags : List String) :
    AppState × List Effect :=
  if 0 ≤ idx ∧ idx < s.images.length then
    imageListDataChanged { s with images := setTagsAt s.images idx.toNat tags }
  else (s, [])

/-- `MainWindow.update_image_list_model_tags` (`main_window.py` lines
131-135): write the editor's current tag list back into the image list model
at `image_tags_editor.image_index`. -/
def update_image_list_model_tags (s : AppState) : AppState × List Effect :=
  ImageListModel.update_tags s s.editorIndex s.editorTags

/-- Modelled from the spec: `ImageViewer.load_image`, the first slot
connected to `currentChanged` (line 51-52): "renders the currently selected
image". -/
def ImageViewer.load_image (s : AppState) (row : Int) : AppState × List Effect :=
  ({ s with viewerRow := row }, [.viewerLoad row])

/-- Modelled from the spec: `ImageTagsEditor.load_image_tags`, the second
slot connected to `currentChanged` (lines 53-54): the editor records the new
image index and loads that image's tags into the Image Tag List Model
("Image Tag List Model always reflects exactly the tags of the Image Entry
at the currently selected index, or is empty when nothing is selected").
Loading replaces the editor's list wholesale (a model reset), so it does not
emit the edit signals `dataChanged`/`rowsRemoved`/`rowsMoved` and therefore
does not trigger the write-back slot. -/
def ImageTagsEditor.load_image_tags (s : AppState) (row : Int) : AppState × List Effect :=
  ({ s with editorIndex := row, editorTags := entryTagsAt s.images row }, [.editorLoad row])

/-- The synchronous slot cascade of the selection model's `currentChanged`
signal, in connection order (`main_window.py` lines 51-56): viewer load,
editor load, then `settings.setValue('image_index', index.row())`. -/
def currentChangedSlots (s : AppState) (row : Int) : AppState × List Effect :=
  let p1 := ImageViewer.load_image s row
  let p2 := ImageTagsEditor.load_image_tags p1.1 row
  ({ p2.1 with settings := p2.1.settings.setValue "image_index" (.int row) },
   p1.2 ++ p2.2 ++ [.setSetting "image_index" (.int row)])

/-- `QItemSelectionModel` current-index change: emits `currentChanged` (and
hence runs the slot cascade) exactly when the row actually changes. -/
def setCurrentRow (s : AppState) (row : Int) : AppState × List Effect :=
  if row = s.currentRow then (s, [])
  else currentChangedSlots { s with currentRow := row } row

/-- `clearCurrentIndex()`: set the current index to the invalid index
(row `-1`), emitting `currentChanged` if something was selected. -/
def clearCurrentIndex (s : AppState) : AppState × List Effect :=
  let p := setCurrentRow s (-1)
  (p.1, .clearSelection :: p.2)

/-- `MainWindow.load_directory` (`main_window.py` lines 77-85): persist the
path, reload the image list model from the directory (a model reset, not a
`dataChanged` emission), clear the current index "to make sure that the
`currentChanged` signal is emitted even if the image at the index is already
selected", select `select_index`, and switch the central widget to the
viewer. -/
def load_directory (fs : FileSystem) (s : AppState) (path : String) (select_index : Int) :
    AppState × List Effect :=
  let s1 : AppState := { s with settings := s.settings.setValue "directory_path" (.str path) }
  let s2 : AppState := { s1 with images := fs.listDir path }
  let p3 := clearCurrentIndex s2
  let target := modelIndexRow p3.1.images select_index
  let p4 := setCurrentRow p3.1 target
  ({ p4.1 with centralWidget := .imageViewer },
   .setSetting "directory_path" (.str path) :: .modelReload path ::
     (p3.2 ++ (.setSelection target :: p4.2) ++ [.showViewer]))

/-- `MainWindow.select_and_load_directory` (`main_window.py` lines 87-99):
read the last directory (guarded by `contains`) as the dialog's initial
directory, then run the directory picker; `dialogResult` is the picked path,
`""` when the dialog was cancelled, in which case the method returns without
doing anything.  Otherwise it calls `load_directory` with the default
`select_index` of 0. -/
def select_and_load_directory (fs : FileSystem) (s : AppState) (dialogResult : String) :
    AppState × List Effect :=
  let t0 : List Effect :=
    if s.settings.containsKey "directory_path" then [.readSetting "directory_path"] else []
  if dialogResult = "" then (s, t0)
  else
    let p := load_directory fs s dialogResult 0
    (p.1, t0 ++ p.2)

/-- `MainWindow.closeEvent` (`main_window.py` lines 71-75): save the window
geometry and state, then let the base class handle the close. -/
def closeEvent (s : AppState) (geometry windowState : SettingsValue) :
    AppState × List Effect :=
  let st := (s.settings.setValue "geometry" geometry).setValue "window_state" windowState
  ({ s with settings := st },
   [.setSetting "geometry" geometry, .setSetting "window_state" windowState, .baseClose])

/-- `MainWindow.set_font_size` (`main_window.py` lines 137-142): read the
`font_size` settings value with no presence check and convert it with
`int(...)`.  The final `Bool` is `true` when that conversion raises (missing
key or non-integer value). -/
def set_font_size (s : AppState) : AppState × List Effect × Bool :=
  match pyInt (s.settings.valueOf "font_size") with
  | some n => ({ s with fontSize := some n }, [.readSetting "font_size", .setFont n], false)
  | none => (s, [.readSetting "font_size"], true)

/-- `MainWindow.restore` (`main_window.py` lines 144-160): restore geometry
(guarded) or maximize, restore the window state (unguarded read), read the
last image index (guarded, converted with `int(...)`, which can raise),
reload the last directory (guarded) selecting that index, and finally apply
the font size.  The final `Bool` is `true` when an `int(...)` conversion
raised along the way. -/
def restore (fs : FileSystem) (s : AppState) : AppState × List Effect × Bool :=
  let t1 : List Effect :=
    (if s.settings.containsKey "geometry"
     then [.readSetting "geometry", .restoreGeometry]
     else [.showMaximized]) ++ [.readSetting "window_state", .restoreWindowState]
  if s.settings.containsKey "image_index" then
    match pyInt (s.settings.valueOf "image_index") with
    | none => (s, t1 ++ [.readSetting "image_index"], true)
    | some idx =>
      let t2 := t1 ++ [.readSetting "image_index"]
      let p3 :=
        if s.settings.containsKey "directory_path" then
          let path := pyStr ((s.settings.valueOf "directory_path").getD (.str ""))
          let q := load_directory fs s path idx
          (q.1, Effect.readSetting "directory_path" :: q.2)
        else (s, ([] : List Effect))
      let p4 := set_font_size p3.1
      (p4.1, t2 ++ p3.2 ++ p4.2.1, p4.2.2)
  else
    let p3 :=
      if s.settings.containsKey "directory_path" then
        let path := pyStr ((s.settings.valueOf "directory_path").getD (.str ""))
        let q := load_directory fs s path 0
        (q.1, Effect.readSetting "directory_path" :: q.2)
      else (s, ([] : List Effect))
    let p4 := set_font_size p3.1
    (p4.1, t1 ++ p3.2 ++ p4.2.1, p4.2.2)

/-- The state right after `MainWindow.__init__` has built the widgets and
connected the signals, before `self.restore()` runs: empty models, nothing
selected, the load-directory page showing. -/
def initState (settings : Settings) : AppState :=
  { settings := settings, images := [], tagCounts := [], editorTags := [],
    editorIndex := -1, currentRow := -1,
    centralWidget := .loadDirectoryWidget, viewerRow := -1, fontSize := none }

/-- User-level events the running application reacts to. -/
inductive Event
  /-- the user moves the current selection in the image list view -/
  | selectRow (row : Int)
  /-- an edit through the tag input control replaces the editor's tag list
  (`image_tag_list_model.dataChanged`, lines 62-63) -/
  | editTags (tags : List String)
  /-- a tag row is removed from the editor's list
  (`image_tag_list_model.rowsRemoved`, lines 64-65) -/
  | removeTagRow (i : Nat)
  /-- a tag row is dragged from position `i` to position `j`
  (`image_tag_list_model.rowsMoved`, lines 66-67) -/
  | moveTagRow (i j : Nat)
  /-- a direct `load_directory(path, select_index)` call -/
  | loadDir (path : String) (selectIndex : Int)
  /-- the Load-directory action: `select_and_load_directory` with the
  dialog's outcome (`""` = cancelled) -/
  | dialogLoadDir (result : String)
  /-- the window close event, carrying the geometry and state blobs -/
  | windowClose (geometry windowState : SettingsValue)
deriving DecidableEq, Repr

/-- An edit event on the Image Tag List Model: replace the list, emitting
`dataChanged`, whose connected slot writes the list back (lines 62-63). -/
def editorSetTags (s : AppState) (tags : List String) : AppState × List Effect :=
  update_image_list_model_tags { s with editorTags := tags }

/-- Removal of row `i` from the Image Tag List Model, emitting `rowsRemoved`,
whose connected slot writes the list back (lines 64-65). -/
def editorRemoveRow (s : AppState) (i : Nat) : AppState × List Effect :=
  if i < s.editorTags.length then
    update_image_list_model_tags { s with editorTags := s.editorTags.eraseIdx i }
  else (s, [])

/-- Drag-move of row `i` to position `j` in the Image Tag List Model,
emitting `rowsMoved`, whose connected slot writes the list back
(lines 66-67). -/
def editorMoveRow (s : AppState) (i j : Nat) : AppState × List Effect :=
  if h : i < s.editorTags.length ∧ j < s.editorTags.length then
    update_image_list_model_tags
      { s with editorTags :=
          ((s.editorTags.eraseIdx i).insertIdx j (s.editorTags.get ⟨i, h.1⟩)) }
  else (s, [])

/-- The application's step function: run one event's synchronous slot
cascade.  The image list view only ever reports rows of existing model
indices (or the invalid index), so `selectRow` normalizes through
`modelIndexRow`. -/
def step (fs : FileSystem) (s : AppState) : Event → AppState × List Effect
  | .selectRow row => setCurrentRow s (modelIndexRow s.images row)
  | .editTags tags => editorSetTags s tags
  | .removeTagRow i => editorRemoveRow s i
  | .moveTagRow i j => editorMoveRow s i j
  | .loadDir path i => load_directory fs s path i
  | .dialogLoadDir result => select_and_load_directory fs s result
  | .windowClose g w => closeEvent s g w

/-- The tag-synchronization invariant of the spec: the Image Tag List Model
holds exactly the tags of the image at the currently selected index (and the
editor's recorded image index is that index), or is empty when nothing is
selected. -/
def tagSyncInv (s : AppState) : Prop :=
  (s.currentRow = -1 → s.editorTags = []) ∧
  (0 ≤ s.currentRow → s.currentRow < s.images.length →
    ((s.images.get? s.currentRow.toNat).map ImageEntry.tags) = some s.editorTags ∧
      s.editorIndex = s.currentRow)

instance (s : AppState) : Decidable (tagSyncInv s) := by
  unfold tagSyncInv; infer_instance

/-- Is this event a mutation of the Image Tag List Model (one of the three
signals `dataChanged`, `rowsRemoved`, `rowsMoved` connected to the
write-back slot)? -/
def isEditorMutation : Event → Bool
  | .editTags _ => true
  | .removeTagRow _ => true
  | .moveTagRow _ _ => true
  | _ => false

/-- Mutations of the Image Tag List Model originate in the docked tags
editor, which operates on the image it has loaded; such an event only occurs
while some image is selected. -/
def eventOk (s : AppState) (e : Event) : Prop :=
  isEditorMutation e = true → 0 ≤ s.currentRow

instance (s : AppState) (e : Event) : Decidable (eventOk s e) := by
  unfold eventOk; infer_instance
/-- The state right after the `currentChanged` cascade for a change to
`row`: viewer and editor loaded, `image_index` persisted. -/
def afterSelect (s : AppState) (row : Int) : AppState :=
  { s with
    currentRow := row
    viewerRow := row
    editorIndex := row
    editorTags := entryTagsAt s.images row
    settings := s.settings.setValue "image_index" (.int row) }
/-- The state after `load_directory` has persisted the path and reloaded the
image list model, before the selection is touched. -/
def ldReload (fs : FileSystem) (s : AppState) (path : String) : AppState :=
  { s with
    settings := s.settings.setValue "directory_path" (.str path)
    images := fs.listDir path }
/-- The geometry/window-state part of `restore`'s effect trace. -/
def restoreHead (s : AppState) : List Effect :=
  (if s.settings.containsKey "geometry"
   then [.readSetting "geometry", .restoreGeometry]
   else [.showMaximized]) ++ [.readSetting "window_state", .restoreWindowState]

/-- The directory path `restore` passes to `load_directory`. -/
def restorePath (s : AppState) : String :=
  pyStr ((s.settings.valueOf "directory_path").getD (.str ""))

/-- A two-image directory used to evaluate the definitions on concrete
inputs. -/
def fsW : FileSystem :=
  show List (String × List ImageEntry) from
    [("d", [{ path := "a.png", tags := ["cat", "cute"] },
            { path := "b.png", tags := ["dog"] }])]

/-- An empty settings store. -/
def emptySettings : Settings :=
  show List (String × SettingsValue) from []

/-- A settings store as left by a previous session: image index 1 in
directory `d`, font size 12. -/
def settingsRestoreW : Settings :=
  show List (String × SettingsValue) from
    [("image_index", .int 1), ("directory_path", .str "d"),
     ("font_size", .int 12)]

/-- Like `settingsRestoreW` but with no stored image index. -/
def settingsNoIdxW : Settings :=
  show List (String × SettingsValue) from
    [("directory_path", .str "d"), ("font_size", .int 12)]

/-- A running state: directory `d` loaded, image 0 selected, its tags in
the editor. -/
def stateW : AppState :=
  { settings := show List (String × SettingsValue) from []
    images := [{ path := "a.png", tags := ["cat", "cute"] },
               { path := "b.png", tags := ["dog"] }]
    tagCounts := []
    editorTags := ["cat", "cute"]
    editorIndex := 0
    currentRow := 0
    centralWidget := .imageViewer
    viewerRow := 0
    fontSize := none }

end TagGui

namespace TagGui

/-! ## Basic lemmas about the tag counter -/

theorem tableCount_bumpTag (table : List (String × Nat)) (u t : String) :
    tableCount (bumpTag table u) t = tableCount table t + (if u = t then 1 else 0) := by
  induction table with
  | nil =>
    by_cases h : u = t <;> simp [bumpTag, tableCount, beq_iff_eq, h]
  | cons p rest ih =>
    obtain ⟨v, n⟩ := p
    by_cases hv : v = u
    · subst hv
      by_cases h : v = t <;> simp [bumpTag, tableCount, beq_iff_eq, h]
    · by_cases h : v = t
      · subst h
        have hu : ¬ (u = v) := fun hc => hv hc.symm
        simp [bumpTag, tableCount, beq_iff_eq, hv, hu]
      · simpa [bumpTag, tableCount, beq_iff_eq, hv, h] using ih

theorem tableCount_foldl (l : List String) (init : List (String × Nat)) (t : String) :
    tableCount (l.foldl bumpTag init) t = tableCount init t + l.count t := by
  induction l generalizing init with
  | nil => simp
  | cons u rest ih =>
    simp only [List.foldl_cons, ih, tableCount_bumpTag, List.count_cons, beq_iff_eq]
    by_cases h : u = t
    · simp only [if_pos h, if_pos h.symm]
      omega
    · simp only [if_neg h, if_neg (fun hc : t = u => h hc.symm)]
      omega

theorem tableCount_countTags (images : List ImageEntry) (t : String) :
    tableCount (countTags images) t = ((images.map ImageEntry.tags).flatten).count t := by
  have h0 : tableCount [] t = 0 := rfl
  simp [countTags, tableCount_foldl, h0]

end TagGui

namespace TagGui

/-! ## Lemmas about the settings store -/

theorem find?_filter_key (l : List (String × SettingsValue)) (k k' : String)
    (h : k ≠ k') :
    (l.filter (fun p => p.1 != k)).find? (fun p => p.1 == k') =
      l.find? (fun p => p.1 == k') := by
  induction l with
  | nil => rfl
  | cons p rest ih =>
    by_cases hp' : p.1 = k'
    · have hq : (p.1 != k) = true := by
        simp only [bne_iff_ne, ne_eq, hp']
        exact fun hc => h hc.symm
      have hf : (p.1 == k') = true := by simpa using hp'
      rw [List.filter_cons_of_pos (by simpa using hq)]
      simp only [List.find?_cons, hf]
    · have hf : (p.1 == k') = false := by simpa using hp'
      by_cases hp : p.1 = k
      · have hq : (p.1 != k) = false := by simpa using hp
        rw [List.filter_cons_of_neg (by simpa using hq)]
        simp only [List.find?_cons, hf, ih]
      · have hq : (p.1 != k) = true := by simpa using hp
        rw [List.filter_cons_of_pos (by simpa using hq)]
        simp only [List.find?_cons, hf, ih]

theorem valueOf_setValue_same (s : Settings) (k : String) (v : SettingsValue) :
    (s.setValue k v).valueOf k = some v := by
  simp [Settings.setValue, Settings.valueOf]

theorem valueOf_setValue_ne (s : Settings) (k k' : String) (v : SettingsValue)
    (h : k ≠ k') : (s.setValue k v).valueOf k' = s.valueOf k' := by
  unfold Settings.setValue Settings.valueOf
  have hk : (k == k') = false := by simpa using h
  simp only [List.find?_cons, hk, find?_filter_key _ _ _ h]

end TagGui

namespace TagGui

/-! ## Lemmas about list surgery and the invariant -/

theorem setTagsAt_length (l : List ImageEntry) (i : Nat) (tags : List String) :
    (setTagsAt l i tags).length = l.length := by
  induction l generalizing i with
  | nil => rfl
  | cons e rest ih =>
    cases i with
    | zero => rfl
    | succ j => simp [setTagsAt, ih]

theorem setTagsAt_get?_same (l : List ImageEntry) (i : Nat) (tags : List String)
    (h : i < l.length) :
    ((setTagsAt l i tags).get? i).map ImageEntry.tags = some tags := by
  induction l generalizing i with
  | nil => exact absurd h (by simp)
  | cons e rest ih =>
    cases i with
    | zero => rfl
    | succ j =>
      have hj : j < rest.length := by simpa using h
      simpa [setTagsAt] using ih j hj

theorem get?_entryTagsAt (l : List ImageEntry) (row : Int) (h0 : 0 ≤ row)
    (h1 : row < l.length) :
    (l.get? row.toNat).map ImageEntry.tags = some (entryTagsAt l row) := by
  have hlt : row.toNat < l.length := by omega
  have he : l.get? row.toNat = some (l.get ⟨row.toNat, hlt⟩) := List.get?_eq_get hlt
  unfold entryTagsAt
  rw [if_pos h0, he]
  rfl

theorem entryTagsAt_neg (l : List ImageEntry) : entryTagsAt l (-1) = [] := by
  simp [entryTagsAt]


end TagGui

namespace TagGui

/-! ## Equations for the selection-change cascade -/


theorem setCurrentRow_of_eq (s : AppState) (row : Int) (h : row = s.currentRow) :
    setCurrentRow s row = (s, []) := by
  simp [setCurrentRow, h]

theorem setCurrentRow_of_ne (s : AppState) (row : Int) (h : ¬ row = s.currentRow) :
    setCurrentRow s row =
      (afterSelect s row,
       [.viewerLoad row, .editorLoad row, .setSetting "image_index" (.int row)]) := by
  simp only [setCurrentRow, if_neg h]
  rfl

theorem setCurrentRow_fst_currentRow (s : AppState) (row : Int) :
    (setCurrentRow s row).1.currentRow = row := by
  by_cases h : row = s.currentRow
  · rw [setCurrentRow_of_eq s row h]; exact h.symm
  · rw [setCurrentRow_of_ne s row h]; rfl

theorem setCurrentRow_fst_images (s : AppState) (row : Int) :
    (setCurrentRow s row).1.images = s.images := by
  by_cases h : row = s.currentRow
  · rw [setCurrentRow_of_eq s row h]
  · rw [setCurrentRow_of_ne s row h]; rfl

theorem setCurrentRow_fst_centralWidget (s : AppState) (row : Int) :
    (setCurrentRow s row).1.centralWidget = s.centralWidget := by
  by_cases h : row = s.currentRow
  · rw [setCurrentRow_of_eq s row h]
  · rw [setCurrentRow_of_ne s row h]; rfl

theorem setCurrentRow_fst_valueOf (s : AppState) (row : Int) (k : String)
    (hk : ¬ "image_index" = k) :
    (setCurrentRow s row).1.settings.valueOf k = s.settings.valueOf k := by
  by_cases h : row = s.currentRow
  · rw [setCurrentRow_of_eq s row h]
  · rw [setCurrentRow_of_ne s row h]
    exact valueOf_setValue_ne _ _ _ _ hk

theorem setCurrentRow_snd (s : AppState) (row : Int) :
    (setCurrentRow s row).2 =
      if row = s.currentRow then [] else
        [.viewerLoad row, .editorLoad row, .setSetting "image_index" (.int row)] := by
  by_cases h : row = s.currentRow
  · rw [setCurrentRow_of_eq s row h, if_pos h]
  · rw [setCurrentRow_of_ne s row h, if_neg h]

theorem tagSyncInv_setCurrentRow (s : AppState) (row : Int) (hinv : tagSyncInv s) :
    tagSyncInv (setCurrentRow s row).1 := by
  by_cases h : row = s.currentRow
  · rw [setCurrentRow_of_eq s row h]; exact hinv
  · rw [setCurrentRow_of_ne s row h]
    refine ⟨?_, ?_⟩
    · intro hr
      have hrow : row = -1 := hr
      show entryTagsAt s.images row = []
      rw [hrow]
      exact entryTagsAt_neg s.images
    · intro h0 h1
      have h0' : 0 ≤ row := h0
      have h1' : row < (s.images.length : Int) := h1
      exact ⟨get?_entryTagsAt s.images row h0' h1', rfl⟩

theorem clearCurrentIndex_fst_currentRow (s : AppState) :
    (clearCurrentIndex s).1.currentRow = -1 :=
  setCurrentRow_fst_currentRow s (-1)

theorem clearCurrentIndex_fst_editorTags (s : AppState)
    (h1 : s.currentRow = -1 → s.editorTags = []) :
    (clearCurrentIndex s).1.editorTags = [] := by
  show (setCurrentRow s (-1)).1.editorTags = []
  by_cases h : (-1 : Int) = s.currentRow
  · rw [setCurrentRow_of_eq s (-1) h]
    exact h1 h.symm
  · rw [setCurrentRow_of_ne s (-1) h]
    exact entryTagsAt_neg s.images

theorem clearCurrentIndex_fst_images (s : AppState) :
    (clearCurrentIndex s).1.images = s.images :=
  setCurrentRow_fst_images s (-1)

theorem clearCurrentIndex_fst_centralWidget (s : AppState) :
    (clearCurrentIndex s).1.centralWidget = s.centralWidget :=
  setCurrentRow_fst_centralWidget s (-1)

theorem clearCurrentIndex_fst_valueOf (s : AppState) (k : String)
    (hk : ¬ "image_index" = k) :
    (clearCurrentIndex s).1.settings.valueOf k = s.settings.valueOf k :=
  setCurrentRow_fst_valueOf s (-1) k hk

theorem clearCurrentIndex_snd (s : AppState) :
    (clearCurrentIndex s).2 = .clearSelection :: (setCurrentRow s (-1)).2 := rfl

end TagGui

namespace TagGui

/-! ## Equations for `load_directory` -/


theorem ldReload_images (fs : FileSystem) (s : AppState) (path : String) :
    (ldReload fs s path).images = fs.listDir path := rfl

theorem load_directory_fst_images (fs : FileSystem) (s : AppState) (path : String)
    (i : Int) : (load_directory fs s path i).1.images = fs.listDir path := by
  show (setCurrentRow (clearCurrentIndex (ldReload fs s path)).1
      (modelIndexRow (clearCurrentIndex (ldReload fs s path)).1.images i)).1.images = _
  rw [setCurrentRow_fst_images, clearCurrentIndex_fst_images, ldReload_images]

theorem load_directory_fst_currentRow (fs : FileSystem) (s : AppState) (path : String)
    (i : Int) :
    (load_directory fs s path i).1.currentRow = modelIndexRow (fs.listDir path) i := by
  show (setCurrentRow (clearCurrentIndex (ldReload fs s path)).1
      (modelIndexRow (clearCurrentIndex (ldReload fs s path)).1.images i)).1.currentRow = _
  rw [clearCurrentIndex_fst_images, ldReload_images, setCurrentRow_fst_currentRow]

theorem load_directory_fst_centralWidget (fs : FileSystem) (s : AppState) (path : String)
    (i : Int) : (load_directory fs s path i).1.centralWidget = .imageViewer := rfl

theorem load_directory_fst_valueOf_path (fs : FileSystem) (s : AppState) (path : String)
    (i : Int) :
    (load_directory fs s path i).1.settings.valueOf "directory_path" =
      some (.str path) := by
  show (setCurrentRow (clearCurrentIndex (ldReload fs s path)).1
      (modelIndexRow (clearCurrentIndex (ldReload fs s path)).1.images i)).1.settings.valueOf
      "directory_path" = _
  rw [setCurrentRow_fst_valueOf _ _ _ (by decide),
    clearCurrentIndex_fst_valueOf _ _ (by decide)]
  exact valueOf_setValue_same _ _ _

theorem load_directory_fst_valueOf_other (fs : FileSystem) (s : AppState) (path : String)
    (i : Int) (k : String) (hk1 : ¬ "image_index" = k) (hk2 : ¬ "directory_path" = k) :
    (load_directory fs s path i).1.settings.valueOf k = s.settings.valueOf k := by
  show (setCurrentRow (clearCurrentIndex (ldReload fs s path)).1
      (modelIndexRow (clearCurrentIndex (ldReload fs s path)).1.images i)).1.settings.valueOf
      k = _
  rw [setCurrentRow_fst_valueOf _ _ _ hk1, clearCurrentIndex_fst_valueOf _ _ hk1]
  exact valueOf_setValue_ne _ _ _ _ hk2

theorem tagSyncInv_load_directory (fs : FileSystem) (s : AppState) (path : String)
    (i : Int) (h1 : s.currentRow = -1 → s.editorTags = []) :
    tagSyncInv (load_directory fs s path i).1 := by
  have h2 : (clearCurrentIndex (ldReload fs s path)).1.currentRow = -1 :=
    clearCurrentIndex_fst_currentRow _
  have h3 : (clearCurrentIndex (ldReload fs s path)).1.editorTags = [] :=
    clearCurrentIndex_fst_editorTags _ h1
  have hinv3 : tagSyncInv (clearCurrentIndex (ldReload fs s path)).1 := by
    refine ⟨fun _ => h3, fun h0 _ => ?_⟩
    rw [h2] at h0
    exact absurd h0 (by decide)
  have hinv4 := tagSyncInv_setCurrentRow (clearCurrentIndex (ldReload fs s path)).1
    (modelIndexRow (clearCurrentIndex (ldReload fs s path)).1.images i) hinv3
  exact hinv4

theorem load_directory_snd (fs : FileSystem) (s : AppState) (path : String) (i : Int) :
    (load_directory fs s path i).2 =
      [.setSetting "directory_path" (.str path), .modelReload path, .clearSelection] ++
        (setCurrentRow (ldReload fs s path) (-1)).2 ++
        [.setSelection (modelIndexRow (fs.listDir path) i)] ++
        (setCurrentRow (clearCurrentIndex (ldReload fs s path)).1
          (modelIndexRow (fs.listDir path) i)).2 ++ [.showViewer] := by
  show (Effect.setSetting "directory_path" (.str path) :: .modelReload path ::
      ((clearCurrentIndex (ldReload fs s path)).2 ++
        (.setSelection (modelIndexRow (clearCurrentIndex (ldReload fs s path)).1.images i) ::
          (setCurrentRow (clearCurrentIndex (ldReload fs s path)).1
            (modelIndexRow (clearCurrentIndex (ldReload fs s path)).1.images i)).2) ++
        [.showViewer])) = _
  rw [clearCurrentIndex_fst_images, ldReload_images, clearCurrentIndex_snd]
  simp

theorem setCurrentRow_snd_no_read (s : AppState) (row : Int) (k : String) :
    Effect.readSetting k ∉ (setCurrentRow s row).2 := by
  rw [setCurrentRow_snd]
  split <;> simp

theorem load_directory_no_read (fs : FileSystem) (s : AppState) (path : String)
    (i : Int) (k : String) : Effect.readSetting k ∉ (load_directory fs s path i).2 := by
  rw [load_directory_snd]
  simp [setCurrentRow_snd_no_read]

end TagGui

namespace TagGui

/-! ## The write-back of editor mutations -/

theorem update_tags_of_inRange (s : AppState) (idx : Int) (tags : List String)
    (hin : 0 ≤ idx ∧ idx < (s.images.length : Int)) :
    ImageListModel.update_tags s idx tags =
      ({ s with
          images := setTagsAt s.images idx.toNat tags
          tagCounts := countTags (setTagsAt s.images idx.toNat tags) },
       [.recount]) := by
  unfold ImageListModel.update_tags imageListDataChanged
  split
  case isTrue h => rfl
  case isFalse h => exact absurd hin h

theorem update_tags_of_outRange (s : AppState) (idx : Int) (tags : List String)
    (hout : ¬ (0 ≤ idx ∧ idx < (s.images.length : Int))) :
    ImageListModel.update_tags s idx tags = (s, []) := by
  unfold ImageListModel.update_tags
  split
  case isTrue h => exact absurd h hout
  case isFalse h => rfl

theorem writeback_spec (s : AppState) (newTags : List String)
    (hinv : tagSyncInv s) (h0 : 0 ≤ s.currentRow) :
    tagSyncInv (update_image_list_model_tags { s with editorTags := newTags }).1 ∧
    (s.currentRow < (s.images.length : Int) →
      (((update_image_list_model_tags { s with editorTags := newTags }).1.images.get?
          s.currentRow.toNat).map ImageEntry.tags) =
        some (update_image_list_model_tags { s with editorTags := newTags }).1.editorTags ∧
      (update_image_list_model_tags { s with editorTags := newTags }).1.currentRow =
        s.currentRow) := by
  have e1 : update_image_list_model_tags { s with editorTags := newTags } =
      ImageListModel.update_tags { s with editorTags := newTags } s.editorIndex newTags := rfl
  rw [e1]
  by_cases hin : 0 ≤ s.editorIndex ∧ s.editorIndex < (s.images.length : Int)
  · rw [update_tags_of_inRange { s with editorTags := newTags } s.editorIndex newTags hin]
    refine ⟨⟨?_, ?_⟩, ?_⟩
    · intro hr
      have hr' : s.currentRow = -1 := hr
      rw [hr'] at h0
      exact absurd h0 (by decide)
    · intro h0' h1'
      have h1'' : s.currentRow < (s.images.length : Int) := by
        have hl : (setTagsAt s.images s.editorIndex.toNat newTags).length =
          s.images.length := setTagsAt_length _ _ _
        have := h1'
        simp only at this
        rw [hl] at this
        exact this
      have heq := hinv.2 h0 h1''
      have hei : s.editorIndex = s.currentRow := heq.2
      refine ⟨?_, hei⟩
      show ((setTagsAt s.images s.editorIndex.toNat newTags).get?
        s.currentRow.toNat).map ImageEntry.tags = some newTags
      rw [hei]
      exact setTagsAt_get?_same s.images s.currentRow.toNat newTags (by omega)
    · intro h1''
      have heq := hinv.2 h0 h1''
      have hei : s.editorIndex = s.currentRow := heq.2
      refine ⟨?_, rfl⟩
      show ((setTagsAt s.images s.editorIndex.toNat newTags).get?
        s.currentRow.toNat).map ImageEntry.tags = some newTags
      rw [hei]
      exact setTagsAt_get?_same s.images s.currentRow.toNat newTags (by omega)
  · rw [update_tags_of_outRange { s with editorTags := newTags } s.editorIndex newTags hin]
    refine ⟨⟨?_, ?_⟩, ?_⟩
    · intro hr
      have hr' : s.currentRow = -1 := hr
      rw [hr'] at h0
      exact absurd h0 (by decide)
    · intro h0' h1'
      have h1'' : s.currentRow < (s.images.length : Int) := h1'
      have heq := hinv.2 h0 h1''
      exact absurd ⟨heq.2 ▸ h0, heq.2 ▸ h1''⟩ hin
    · intro h1''
      have heq := hinv.2 h0 h1''
      exact absurd ⟨heq.2 ▸ h0, heq.2 ▸ h1''⟩ hin

end TagGui

namespace TagGui

/-! ## Equations for `set_font_size`, `select_and_load_directory`, `closeEvent` -/

theorem set_font_size_of_some (s : AppState) (n : Int)
    (h : pyInt (s.settings.valueOf "font_size") = some n) :
    set_font_size s =
      ({ s with fontSize := some n }, [.readSetting "font_size", .setFont n], false) := by
  unfold set_font_size
  rw [h]

theorem set_font_size_of_none (s : AppState)
    (h : pyInt (s.settings.valueOf "font_size") = none) :
    set_font_size s = (s, [.readSetting "font_size"], true) := by
  unfold set_font_size
  rw [h]

theorem set_font_size_fst_currentRow (s : AppState) :
    (set_font_size s).1.currentRow = s.currentRow := by
  cases h : pyInt (s.settings.valueOf "font_size") with
  | none => rw [set_font_size_of_none s h]
  | some n => rw [set_font_size_of_some s n h]

theorem set_font_size_fst_settings (s : AppState) :
    (set_font_size s).1.settings = s.settings := by
  cases h : pyInt (s.settings.valueOf "font_size") with
  | none => rw [set_font_size_of_none s h]
  | some n => rw [set_font_size_of_some s n h]

theorem set_font_size_read (s : AppState) :
    Effect.readSetting "font_size" ∈ (set_font_size s).2.1 := by
  cases h : pyInt (s.settings.valueOf "font_size") with
  | none => rw [set_font_size_of_none s h]; simp
  | some n => rw [set_font_size_of_some s n h]; simp

theorem set_font_size_read_only (s : AppState) (k : String)
    (hk : ¬ k = "font_size") : Effect.readSetting k ∉ (set_font_size s).2.1 := by
  cases h : pyInt (s.settings.valueOf "font_size") with
  | none => rw [set_font_size_of_none s h]; simp [hk]
  | some n => rw [set_font_size_of_some s n h]; simp [hk]

theorem select_and_load_directory_cancel (fs : FileSystem) (s : AppState) :
    select_and_load_directory fs s "" =
      (s, if s.settings.containsKey "directory_path"
          then [.readSetting "directory_path"] else []) := rfl

theorem select_and_load_directory_of_path (fs : FileSystem) (s : AppState)
    (r : String) (h : ¬ r = "") :
    select_and_load_directory fs s r =
      ((load_directory fs s r 0).1,
       (if s.settings.containsKey "directory_path"
        then [Effect.readSetting "directory_path"] else []) ++
         (load_directory fs s r 0).2) := by
  unfold select_and_load_directory
  rw [if_neg h]

theorem tagSyncInv_initState (st : Settings) : tagSyncInv (initState st) :=
  ⟨fun _ => rfl, fun h0 _ => absurd h0 (by decide : ¬ (0 : Int) ≤ -1)⟩

theorem tagSyncInv_closeEvent (s : AppState) (g w : SettingsValue)
    (hinv : tagSyncInv s) : tagSyncInv (closeEvent s g w).1 := hinv

end TagGui

namespace TagGui

/-! ## Equations for `restore` -/


theorem restore_of_badIndex (fs : FileSystem) (s : AppState)
    (hii : s.settings.containsKey "image_index" = true)
    (hpy : pyInt (s.settings.valueOf "image_index") = none) :
    restore fs s = (s, restoreHead s ++ [.readSetting "image_index"], true) := by
  unfold restore
  rw [hii, hpy]
  rfl

theorem restore_of_idx_dir (fs : FileSystem) (s : AppState) (idx : Int)
    (hii : s.settings.containsKey "image_index" = true)
    (hpy : pyInt (s.settings.valueOf "image_index") = some idx)
    (hdp : s.settings.containsKey "directory_path" = true) :
    restore fs s =
      ((set_font_size (load_directory fs s (restorePath s) idx).1).1,
       (restoreHead s ++ [.readSetting "image_index"]) ++
         (Effect.readSetting "directory_path" ::
           (load_directory fs s (restorePath s) idx).2) ++
         (set_font_size (load_directory fs s (restorePath s) idx).1).2.1,
       (set_font_size (load_directory fs s (restorePath s) idx).1).2.2) := by
  unfold restore
  rw [hii, hpy, hdp]
  rfl

theorem restore_of_idx_nodir (fs : FileSystem) (s : AppState) (idx : Int)
    (hii : s.settings.containsKey "image_index" = true)
    (hpy : pyInt (s.settings.valueOf "image_index") = some idx)
    (hdp : s.settings.containsKey "directory_path" = false) :
    restore fs s =
      ((set_font_size s).1,
       (restoreHead s ++ [.readSetting "image_index"]) ++ [] ++ (set_font_size s).2.1,
       (set_font_size s).2.2) := by
  unfold restore
  rw [hii, hpy, hdp]
  rfl

theorem restore_of_noIdx_dir (fs : FileSystem) (s : AppState)
    (hii : s.settings.containsKey "image_index" = false)
    (hdp : s.settings.containsKey "directory_path" = true) :
    restore fs s =
      ((set_font_size (load_directory fs s (restorePath s) 0).1).1,
       restoreHead s ++
         (Effect.readSetting "directory_path" ::
           (load_directory fs s (restorePath s) 0).2) ++
         (set_font_size (load_directory fs s (restorePath s) 0).1).2.1,
       (set_font_size (load_directory fs s (restorePath s) 0).1).2.2) := by
  unfold restore
  rw [hii, hdp]
  rfl

theorem restore_of_noIdx_nodir (fs : FileSystem) (s : AppState)
    (hii : s.settings.containsKey "image_index" = false)
    (hdp : s.settings.containsKey "directory_path" = false) :
    restore fs s =
      ((set_font_size s).1, restoreHead s ++ [] ++ (set_font_size s).2.1,
       (set_font_size s).2.2) := by
  unfold restore
  rw [hii, hdp]
  rfl

end TagGui

namespace TagGui

/-! ## Which settings keys each routine reads -/

theorem set_font_size_read_char (s : AppState) (k : String)
    (h : Effect.readSetting k ∈ (set_font_size s).2.1) : k = "font_size" := by
  by_contra hk
  exact set_font_size_read_only s k hk h

theorem restoreHead_of_geom (s : AppState)
    (hg : s.settings.containsKey "geometry" = true) :
    restoreHead s = [.readSetting "geometry", .restoreGeometry,
      .readSetting "window_state", .restoreWindowState] := by
  unfold restoreHead
  rw [hg]
  rfl

theorem restoreHead_of_nogeom (s : AppState)
    (hg : s.settings.containsKey "geometry" = false) :
    restoreHead s = [.showMaximized, .readSetting "window_state",
      .restoreWindowState] := by
  unfold restoreHead
  rw [hg]
  rfl

theorem restoreHead_read_char (s : AppState) (k : String)
    (h : Effect.readSetting k ∈ restoreHead s) :
    k = "window_state" ∨ (k = "geometry" ∧ s.settings.containsKey "geometry" = true) := by
  cases hg : s.settings.containsKey "geometry" with
  | true =>
    rw [restoreHead_of_geom s hg] at h
    simp at h
    rcases h with h | h
    · exact Or.inr ⟨h, rfl⟩
    · exact Or.inl h
  | false =>
    rw [restoreHead_of_nogeom s hg] at h
    simp at h
    exact Or.inl h

theorem restore_read_char (fs : FileSystem) (s : AppState) (k : String)
    (hmem : Effect.readSetting k ∈ (restore fs s).2.1) :
    k = "window_state" ∨ k = "font_size" ∨
      (k = "geometry" ∧ s.settings.containsKey "geometry" = true) ∨
      (k = "image_index" ∧ s.settings.containsKey "image_index" = true) ∨
      (k = "directory_path" ∧ s.settings.containsKey "directory_path" = true) := by
  cases hii : s.settings.containsKey "image_index" with
  | true =>
    cases hpy : pyInt (s.settings.valueOf "image_index") with
    | none =>
      rw [restore_of_badIndex fs s hii hpy] at hmem
      rcases List.mem_append.mp hmem with h | h
      · rcases restoreHead_read_char s k h with h | h
        · exact Or.inl h
        · exact Or.inr (Or.inr (Or.inl h))
      · have hk : k = "image_index" := by simpa using h
        exact Or.inr (Or.inr (Or.inr (Or.inl ⟨hk, rfl⟩)))
    | some idx =>
      cases hdp : s.settings.containsKey "directory_path" with
      | true =>
        rw [restore_of_idx_dir fs s idx hii hpy hdp] at hmem
        rcases List.mem_append.mp hmem with h | h
        · rcases List.mem_append.mp h with h | h
          · rcases List.mem_append.mp h with h | h
            · rcases restoreHead_read_char s k h with h | h
              · exact Or.inl h
              · exact Or.inr (Or.inr (Or.inl h))
            · have hk : k = "image_index" := by simpa using h
              exact Or.inr (Or.inr (Or.inr (Or.inl ⟨hk, rfl⟩)))
          · rcases List.mem_cons.mp h with h | h
            · have hk : k = "directory_path" := by simpa using h
              exact Or.inr (Or.inr (Or.inr (Or.inr ⟨hk, rfl⟩)))
            · exact absurd h (load_directory_no_read fs s (restorePath s) idx k)
        · exact Or.inr (Or.inl (set_font_size_read_char _ k h))
      | false =>
        rw [restore_of_idx_nodir fs s idx hii hpy hdp] at hmem
        rcases List.mem_append.mp hmem with h | h
        · rcases List.mem_append.mp h with h | h
          · rcases List.mem_append.mp h with h | h
            · rcases restoreHead_read_char s k h with h | h
              · exact Or.inl h
              · exact Or.inr (Or.inr (Or.inl h))
            · have hk : k = "image_index" := by simpa using h
              exact Or.inr (Or.inr (Or.inr (Or.inl ⟨hk, rfl⟩)))
          · exact absurd h (List.not_mem_nil _)
        · exact Or.inr (Or.inl (set_font_size_read_char _ k h))
  | false =>
    cases hdp : s.settings.containsKey "directory_path" with
    | true =>
      rw [restore_of_noIdx_dir fs s hii hdp] at hmem
      rcases List.mem_append.mp hmem with h | h
      · rcases List.mem_append.mp h with h | h
        · rcases restoreHead_read_char s k h with h | h
          · exact Or.inl h
          · exact Or.inr (Or.inr (Or.inl h))
        · rcases List.mem_cons.mp h with h | h
          · have hk : k = "directory_path" := by simpa using h
            exact Or.inr (Or.inr (Or.inr (Or.inr ⟨hk, rfl⟩)))
          · exact absurd h (load_directory_no_read fs s (restorePath s) 0 k)
      · exact Or.inr (Or.inl (set_font_size_read_char _ k h))
    | false =>
      rw [restore_of_noIdx_nodir fs s hii hdp] at hmem
      rcases List.mem_append.mp hmem with h | h
      · rcases List.mem_append.mp h with h | h
        · rcases restoreHead_read_char s k h with h | h
          · exact Or.inl h
          · exact Or.inr (Or.inr (Or.inl h))
        · exact absurd h (List.not_mem_nil _)
      · exact Or.inr (Or.inl (set_font_size_read_char _ k h))

theorem select_and_load_directory_read_char (fs : FileSystem) (s : AppState)
    (r k : String)
    (hmem : Effect.readSetting k ∈ (select_and_load_directory fs s r).2) :
    k = "directory_path" ∧ s.settings.containsKey "directory_path" = true := by
  by_cases hr : r = ""
  · subst hr
    rw [select_and_load_directory_cancel] at hmem
    cases hdp : s.settings.containsKey "directory_path" with
    | true =>
      rw [hdp] at hmem
      have hk : k = "directory_path" := by simpa using hmem
      exact ⟨hk, rfl⟩
    | false =>
      rw [hdp] at hmem
      simp at hmem
  · rw [select_and_load_directory_of_path fs s r hr] at hmem
    rcases List.mem_append.mp hmem with h | h
    · cases hdp : s.settings.containsKey "directory_path" with
      | true =>
        rw [hdp] at h
        have hk : k = "directory_path" := by simpa using h
        exact ⟨hk, rfl⟩
      | false =>
        rw [hdp] at h
        simp at h
    · exact absurd h (load_directory_no_read fs s r 0 k)

end TagGui

namespace TagGui

/-! ## Derived facts about `restore` -/

theorem restore_fst_currentRow_idx_dir (fs : FileSystem) (s : AppState) (idx : Int)
    (hii : s.settings.containsKey "image_index" = true)
    (hpy : pyInt (s.settings.valueOf "image_index") = some idx)
    (hdp : s.settings.containsKey "directory_path" = true) :
    (restore fs s).1.currentRow = modelIndexRow (fs.listDir (restorePath s)) idx := by
  rw [restore_of_idx_dir fs s idx hii hpy hdp]
  rw [set_font_size_fst_currentRow, load_directory_fst_currentRow]

theorem restore_fst_currentRow_noIdx_dir (fs : FileSystem) (s : AppState)
    (hii : s.settings.containsKey "image_index" = false)
    (hdp : s.settings.containsKey "directory_path" = true) :
    (restore fs s).1.currentRow = modelIndexRow (fs.listDir (restorePath s)) 0 := by
  rw [restore_of_noIdx_dir fs s hii hdp]
  rw [set_font_size_fst_currentRow, load_directory_fst_currentRow]

theorem restore_err_of_badFont (fs : FileSystem) (s : AppState)
    (hf : pyInt (s.settings.valueOf "font_size") = none) :
    (restore fs s).2.2 = true := by
  cases hii : s.settings.containsKey "image_index" with
  | true =>
    cases hpy : pyInt (s.settings.valueOf "image_index") with
    | none => rw [restore_of_badIndex fs s hii hpy]
    | some idx =>
      cases hdp : s.settings.containsKey "directory_path" with
      | true =>
        rw [restore_of_idx_dir fs s idx hii hpy hdp]
        have hpres : (load_directory fs s (restorePath s) idx).1.settings.valueOf
            "font_size" = s.settings.valueOf "font_size" :=
          load_directory_fst_valueOf_other fs s (restorePath s) idx "font_size"
            (by decide) (by decide)
        rw [set_font_size_of_none _ (by rw [hpres]; exact hf)]
      | false =>
        rw [restore_of_idx_nodir fs s idx hii hpy hdp]
        rw [set_font_size_of_none _ hf]
  | false =>
    cases hdp : s.settings.containsKey "directory_path" with
    | true =>
      rw [restore_of_noIdx_dir fs s hii hdp]
      have hpres : (load_directory fs s (restorePath s) 0).1.settings.valueOf
          "font_size" = s.settings.valueOf "font_size" :=
        load_directory_fst_valueOf_other fs s (restorePath s) 0 "font_size"
          (by decide) (by decide)
      rw [set_font_size_of_none _ (by rw [hpres]; exact hf)]
    | false =>
      rw [restore_of_noIdx_nodir fs s hii hdp]
      rw [set_font_size_of_none _ hf]

theorem restoreHead_reads_window_state (s : AppState) :
    Effect.readSetting "window_state" ∈ restoreHead s := by
  cases hg : s.settings.containsKey "geometry" with
  | true => rw [restoreHead_of_geom s hg]; simp
  | false => rw [restoreHead_of_nogeom s hg]; simp

theorem restore_reads_window_state (fs : FileSystem) (s : AppState) :
    Effect.readSetting "window_state" ∈ (restore fs s).2.1 := by
  have hh := restoreHead_reads_window_state s
  cases hii : s.settings.containsKey "image_index" with
  | true =>
    cases hpy : pyInt (s.settings.valueOf "image_index") with
    | none =>
      rw [restore_of_badIndex fs s hii hpy]
      exact List.mem_append.mpr (Or.inl hh)
    | some idx =>
      cases hdp : s.settings.containsKey "directory_path" with
      | true =>
        rw [restore_of_idx_dir fs s idx hii hpy hdp]
        exact List.mem_append.mpr (Or.inl (List.mem_append.mpr
          (Or.inl (List.mem_append.mpr (Or.inl hh)))))
      | false =>
        rw [restore_of_idx_nodir fs s idx hii hpy hdp]
        exact List.mem_append.mpr (Or.inl (List.mem_append.mpr
          (Or.inl (List.mem_append.mpr (Or.inl hh)))))
  | false =>
    cases hdp : s.settings.containsKey "directory_path" with
    | true =>
      rw [restore_of_noIdx_dir fs s hii hdp]
      exact List.mem_append.mpr (Or.inl (List.mem_append.mpr (Or.inl hh)))
    | false =>
      rw [restore_of_noIdx_nodir fs s hii hdp]
      exact List.mem_append.mpr (Or.inl (List.mem_append.mpr (Or.inl hh)))

end TagGui

namespace TagGui

/-! ## The claims -/

/-- C6: if the directory-picker dialog is cancelled (returns an empty path),
`select_and_load_directory` is a no-op: the whole application state — image
list model, selection, visible central panel, settings — is unchanged. -/
theorem c6_cancelled_dialog_noop (fs : FileSystem) (s : AppState) :
    (select_and_load_directory fs s "").1 = s := by
  rw [select_and_load_directory_cancel]

/-- C8: on window close, the geometry and window-state blobs are written to
the settings keys `geometry` and `window_state`, and both writes precede the
base-class close handling (`baseClose` is the last effect). -/
theorem c8_close_saves_before_teardown (s : AppState) (g w : SettingsValue) :
    (closeEvent s g w).2 =
      [.setSetting "geometry" g, .setSetting "window_state" w, .baseClose] ∧
    (closeEvent s g w).1.settings.valueOf "geometry" = some g ∧
    (closeEvent s g w).1.settings.valueOf "window_state" = some w := by
  refine ⟨rfl, ?_, ?_⟩
  · show ((s.settings.setValue "geometry" g).setValue "window_state" w).valueOf
      "geometry" = some g
    rw [valueOf_setValue_ne _ _ _ _ (by decide)]
    exact valueOf_setValue_same _ _ _
  · exact valueOf_setValue_same _ _ _

/-- C2: the slot connected to the Image List Model's `dataChanged` recomputes
the Tag Counter Model over the entire current image list, so after every
such notification the tag-count table equals the multiset union of all
images' current tag lists; and every mutating `update_tags` emits the
notification. -/
theorem c2_recount_is_full_multiset_union :
    (∀ (images : List ImageEntry) (t : String),
      tableCount (countTags images) t = ((images.map ImageEntry.tags).flatten).count t) ∧
    (∀ (s : AppState) (t : String),
      tableCount (imageListDataChanged s).1.tagCounts t =
        (((imageListDataChanged s).1.images.map ImageEntry.tags).flatten).count t) ∧
    (∀ (s : AppState) (idx : Int) (tags : List String),
      (ImageListModel.update_tags s idx tags).1.images ≠ s.images →
        Effect.recount ∈ (ImageListModel.update_tags s idx tags).2) := by
  refine ⟨tableCount_countTags, ?_, ?_⟩
  · intro s t
    exact tableCount_countTags s.images t
  · intro s idx tags hne
    by_cases hin : 0 ≤ idx ∧ idx < (s.images.length : Int)
    · rw [update_tags_of_inRange s idx tags hin]
      simp
    · rw [update_tags_of_outRange s idx tags hin] at hne ⊢
      exact absurd rfl hne

/-- Witness for C2 at a concrete mutation: updating image 0's tags emits
the recount notification. -/
theorem c2_recount_witness :
    (ImageListModel.update_tags stateW 0 ["x"]).1.images ≠ stateW.images ∧
    Effect.recount ∈ (ImageListModel.update_tags stateW 0 ["x"]).2 :=
  ⟨by decide, c2_recount_is_full_multiset_union.2.2 stateW 0 ["x"] (by decide)⟩

/-- C3: a selection change to a valid row `N` loads image `N` into the
viewer and loads exactly image `N`'s tags into the Image Tag List Model. -/
theorem c3_selection_loads_image_and_tags (fs : FileSystem) (s : AppState)
    (N : Int) (h0 : 0 ≤ N) (h1 : N < (s.images.length : Int))
    (hne : ¬ N = s.currentRow) :
    (step fs s (.selectRow N)).1.viewerRow = N ∧
    (step fs s (.selectRow N)).1.editorIndex = N ∧
    ((s.images.get? N.toNat).map ImageEntry.tags) =
      some ((step fs s (.selectRow N)).1.editorTags) ∧
    Effect.viewerLoad N ∈ (step fs s (.selectRow N)).2 ∧
    Effect.editorLoad N ∈ (step fs s (.selectRow N)).2 := by
  have hm : modelIndexRow s.images N = N := by
    unfold modelIndexRow
    rw [if_pos ⟨h0, h1⟩]
  have hstep : step fs s (.selectRow N) = setCurrentRow s N := by
    simp only [step, hm]
  rw [hstep, setCurrentRow_of_ne s N hne]
  refine ⟨rfl, rfl, ?_, by simp, by simp⟩
  show (s.images.get? N.toNat).map ImageEntry.tags = some (entryTagsAt s.images N)
  exact get?_entryTagsAt s.images N h0 h1

/-- Witness for C3: in the concrete selected state, selecting row 1 loads
image 1 and its tags. -/
theorem c3_selection_witness :
    ((0 : Int) ≤ 1 ∧ (1 : Int) < (stateW.images.length : Int) ∧
      ¬ (1 : Int) = stateW.currentRow) ∧
    ((step fsW stateW (.selectRow 1)).1.viewerRow = 1 ∧
     (step fsW stateW (.selectRow 1)).1.editorIndex = 1 ∧
     ((stateW.images.get? (1 : Int).toNat).map ImageEntry.tags) =
       some ((step fsW stateW (.selectRow 1)).1.editorTags) ∧
     Effect.viewerLoad 1 ∈ (step fsW stateW (.selectRow 1)).2 ∧
     Effect.editorLoad 1 ∈ (step fsW stateW (.selectRow 1)).2) :=
  ⟨⟨by decide, by decide, by decide⟩,
   c3_selection_loads_image_and_tags fsW stateW 1 (by decide) (by decide) (by decide)⟩

end TagGui

namespace TagGui

/-- C7: every directory load clears the current selection, then sets the
selection to the target index, then switches the central panel to the image
viewer, in that order; and because the selection was cleared first, the
`currentChanged` handlers (viewer load, editor load) run for every valid
target index — with no condition relating the target to the previously
selected index, so in particular also when they coincide. -/
theorem c7_load_clear_select_show_order :
    (∀ (fs : FileSystem) (s : AppState) (path : String) (i : Int), ∃ t1 t2,
      (load_directory fs s path i).2 =
        [.setSetting "directory_path" (.str path), .modelReload path,
          .clearSelection] ++ t1 ++
          [.setSelection (modelIndexRow (fs.listDir path) i)] ++ t2 ++
          [.showViewer] ∧
      (load_directory fs s path i).1.centralWidget = .imageViewer) ∧
    (∀ (fs : FileSystem) (s : AppState) (path : String) (i : Int),
      0 ≤ modelIndexRow (fs.listDir path) i →
      Effect.viewerLoad (modelIndexRow (fs.listDir path) i) ∈
        (load_directory fs s path i).2 ∧
      Effect.editorLoad (modelIndexRow (fs.listDir path) i) ∈
        (load_directory fs s path i).2) := by
  constructor
  · intro fs s path i
    refine ⟨(setCurrentRow (ldReload fs s path) (-1)).2,
      (setCurrentRow (clearCurrentIndex (ldReload fs s path)).1
        (modelIndexRow (fs.listDir path) i)).2, ?_, rfl⟩
    rw [load_directory_snd]
  · intro fs s path i h
    have hne : ¬ (modelIndexRow (fs.listDir path) i) =
        (clearCurrentIndex (ldReload fs s path)).1.currentRow := by
      rw [clearCurrentIndex_fst_currentRow]
      omega
    rw [load_directory_snd, setCurrentRow_of_ne _ _ hne]
    constructor <;> simp

/-- Witness for C7: loading directory `d` targeting index 0 from the state
in which row 0 is already selected still runs the viewer-load and
editor-load handlers for row 0. -/
theorem c7_load_witness :
    ((0 : Int) ≤ modelIndexRow (fsW.listDir "d") 0 ∧
      stateW.currentRow = modelIndexRow (fsW.listDir "d") 0) ∧
    Effect.viewerLoad (modelIndexRow (fsW.listDir "d") 0) ∈
      (load_directory fsW stateW "d" 0).2 ∧
    Effect.editorLoad (modelIndexRow (fsW.listDir "d") 0) ∈
      (load_directory fsW stateW "d" 0).2 :=
  ⟨⟨by decide, by decide⟩,
   c7_load_clear_select_show_order.2 fsW stateW "d" 0 (by decide)⟩

/-- C10: `load_directory`'s first effect persists the chosen path under
`directory_path` — before the model reload, hence even when the directory
lists empty — and every selection change (the clearing step included, with
row `-1`) writes its row number to the settings key `image_index`. -/
theorem c10_path_and_index_persisted :
    (∀ (fs : FileSystem) (s : AppState) (path : String) (i : Int), ∃ t,
      (load_directory fs s path i).2 =
        Effect.setSetting "directory_path" (.str path) ::
          Effect.modelReload path :: t) ∧
    (∀ (fs : FileSystem) (s : AppState) (path : String) (i : Int),
      (load_directory fs s path i).1.settings.valueOf "directory_path" =
        some (.str path)) ∧
    (∀ (s : AppState) (row : Int), ¬ row = s.currentRow →
      Effect.setSetting "image_index" (.int row) ∈ (setCurrentRow s row).2 ∧
      (setCurrentRow s row).1.settings.valueOf "image_index" =
        some (.int row)) ∧
    (∀ s : AppState, ¬ s.currentRow = -1 →
      Effect.setSetting "image_index" (.int (-1)) ∈ (clearCurrentIndex s).2) := by
  refine ⟨?_, ?_, ?_, ?_⟩
  · intro fs s path i
    refine ⟨Effect.clearSelection ::
      ((setCurrentRow (ldReload fs s path) (-1)).2 ++
        ([Effect.setSelection (modelIndexRow (fs.listDir path) i)] ++
          ((setCurrentRow (clearCurrentIndex (ldReload fs s path)).1
              (modelIndexRow (fs.listDir path) i)).2 ++ [Effect.showViewer]))), ?_⟩
    rw [load_directory_snd]
    simp
  · intro fs s path i
    exact load_directory_fst_valueOf_path fs s path i
  · intro s row h
    rw [setCurrentRow_of_ne s row h]
    exact ⟨by simp, valueOf_setValue_same _ _ _⟩
  · intro s h
    rw [clearCurrentIndex_snd,
      setCurrentRow_of_ne s (-1) (fun hc => h hc.symm)]
    simp

/-- Witness for C10: loading a directory that lists empty still persists the
path first, and both a selection change and the clearing step write
`image_index`. -/
theorem c10_persisted_witness :
    (∃ t, (load_directory (show List (String × List ImageEntry) from [])
        stateW "e" 0).2 =
      Effect.setSetting "directory_path" (.str "e") ::
        Effect.modelReload "e" :: t) ∧
    (load_directory (show List (String × List ImageEntry) from [])
        stateW "e" 0).1.settings.valueOf "directory_path" =
      some (.str "e") ∧
    (¬ (1 : Int) = stateW.currentRow ∧
      Effect.setSetting "image_index" (.int 1) ∈ (setCurrentRow stateW 1).2) ∧
    (¬ stateW.currentRow = -1 ∧
      Effect.setSetting "image_index" (.int (-1)) ∈ (clearCurrentIndex stateW).2) :=
  ⟨c10_path_and_index_persisted.1 _ stateW "e" 0,
   c10_path_and_index_persisted.2.1 _ stateW "e" 0,
   ⟨by decide, (c10_path_and_index_persisted.2.2.1 stateW 1 (by decide)).1⟩,
   ⟨by decide, c10_path_and_index_persisted.2.2.2 stateW (by decide)⟩⟩

end TagGui

namespace TagGui

/-- C4: a directory load started from the picker dialog selects index 0;
when `restore` finds a stored `image_index` it passes that index instead,
and that (valid) index becomes the selection; with no stored index,
`restore` selects index 0. -/
theorem c4_load_selects_zero_unless_restored :
    (∀ (fs : FileSystem) (s : AppState) (r : String), ¬ r = "" →
      fs.listDir r ≠ [] → (select_and_load_directory fs s r).1.currentRow = 0) ∧
    (∀ (fs : FileSystem) (s : AppState) (idx : Int),
      s.settings.containsKey "image_index" = true →
      pyInt (s.settings.valueOf "image_index") = some idx →
      s.settings.containsKey "directory_path" = true →
      0 ≤ idx → idx < ((fs.listDir (restorePath s)).length : Int) →
      (restore fs s).1.currentRow = idx) ∧
    (∀ (fs : FileSystem) (s : AppState),
      s.settings.containsKey "image_index" = false →
      s.settings.containsKey "directory_path" = true →
      fs.listDir (restorePath s) ≠ [] →
      (restore fs s).1.currentRow = 0) := by
  refine ⟨?_, ?_, ?_⟩
  · intro fs s r hr hne
    rw [select_and_load_directory_of_path fs s r hr]
    show (load_directory fs s r 0).1.currentRow = 0
    rw [load_directory_fst_currentRow]
    unfold modelIndexRow
    rw [if_pos]
    refine ⟨le_refl 0, ?_⟩
    have := List.length_pos.mpr hne
    exact_mod_cast this
  · intro fs s idx hii hpy hdp h0 h1
    rw [restore_fst_currentRow_idx_dir fs s idx hii hpy hdp]
    unfold modelIndexRow
    rw [if_pos ⟨h0, h1⟩]
  · intro fs s hii hdp hne
    rw [restore_fst_currentRow_noIdx_dir fs s hii hdp]
    unfold modelIndexRow
    rw [if_pos]
    refine ⟨le_refl 0, ?_⟩
    have := List.length_pos.mpr hne
    exact_mod_cast this

/-- Witness for C4: restoring from a settings store holding `image_index` 1
selects index 1; with the index entry removed, index 0 is selected; a
dialog-initiated load selects index 0. -/
theorem c4_selects_witness :
    (select_and_load_directory fsW (initState emptySettings) "d").1.currentRow = 0 ∧
    (restore fsW (initState settingsRestoreW)).1.currentRow = 1 ∧
    (restore fsW (initState settingsNoIdxW)).1.currentRow = 0 :=
  ⟨c4_load_selects_zero_unless_restored.1 fsW (initState emptySettings) "d"
      (by decide) (by decide),
   c4_load_selects_zero_unless_restored.2.1 fsW (initState settingsRestoreW) 1
      (by decide) (by decide) (by decide) (by decide) (by decide),
   c4_load_selects_zero_unless_restored.2.2 fsW (initState settingsNoIdxW)
      (by decide) (by decide) (by decide)⟩

/-- C9: `set_font_size` reads the settings key `font_size` unconditionally
(no presence check) and converts it with `int(...)`; whenever that value is
absent or not integer-parsable (`pyInt` yields `none`), `set_font_size`
raises, and so does `restore`, which applies the font size instead of
falling back to a default. -/
theorem c9_font_size_unguarded_raises :
    (∀ s : AppState, Effect.readSetting "font_size" ∈ (set_font_size s).2.1) ∧
    (∀ s : AppState, pyInt (s.settings.valueOf "font_size") = none →
      (set_font_size s).2.2 = true) ∧
    (∀ (fs : FileSystem) (s : AppState),
      pyInt (s.settings.valueOf "font_size") = none →
      (restore fs s).2.2 = true) := by
  refine ⟨set_font_size_read, ?_, ?_⟩
  · intro s h
    rw [set_font_size_of_none s h]
  · intro fs s h
    exact restore_err_of_badFont fs s h

/-- Witness for C9: restoring with an empty settings store (no `font_size`
key) raises. -/
theorem c9_raises_witness :
    pyInt ((initState emptySettings).settings.valueOf "font_size") = none ∧
    (restore fsW (initState emptySettings)).2.2 = true :=
  ⟨by decide,
   c9_font_size_unguarded_raises.2.2 fsW (initState emptySettings) (by decide)⟩

end TagGui

namespace TagGui

/-- C1: the tag-synchronization invariant — the Image Tag List Model holds
exactly the tags of the image at the currently selected index, or is empty
when nothing is selected — holds initially and is preserved by every event;
and every mutation of the Image Tag List Model (data change, row removal,
row move) is synchronously flushed into the Image List Model at the
still-current (previously selected) image index before any selection change
can occur, i.e. already within the mutation's own event. -/
theorem c1_tag_sync_invariant :
    (∀ st : Settings, tagSyncInv (initState st)) ∧
    (∀ (fs : FileSystem) (s : AppState) (e : Event),
      tagSyncInv s → eventOk s e →
      tagSyncInv (step fs s e).1 ∧
      (isEditorMutation e = true → s.currentRow < (s.images.length : Int) →
        (((step fs s e).1.images.get? s.currentRow.toNat).map ImageEntry.tags) =
          some (step fs s e).1.editorTags ∧
        (step fs s e).1.currentRow = s.currentRow)) := by
  refine ⟨tagSyncInv_initState, ?_⟩
  intro fs s e hinv hok
  cases e with
  | selectRow row =>
    refine ⟨tagSyncInv_setCurrentRow s (modelIndexRow s.images row) hinv, ?_⟩
    intro hmut
    exact Bool.noConfusion hmut
  | editTags tags =>
    have h0 : 0 ≤ s.currentRow := hok rfl
    have hw := writeback_spec s tags hinv h0
    exact ⟨hw.1, fun _ h1 => hw.2 h1⟩
  | removeTagRow i =>
    have h0 : 0 ≤ s.currentRow := hok rfl
    simp only [step]
    by_cases hlen : i < s.editorTags.length
    · have e1 : editorRemoveRow s i =
          update_image_list_model_tags { s with editorTags := s.editorTags.eraseIdx i } := by
        unfold editorRemoveRow
        rw [if_pos hlen]
      rw [e1]
      have hw := writeback_spec s (s.editorTags.eraseIdx i) hinv h0
      exact ⟨hw.1, fun _ h1 => hw.2 h1⟩
    · have e1 : editorRemoveRow s i = (s, []) := by
        unfold editorRemoveRow
        rw [if_neg hlen]
      rw [e1]
      exact ⟨hinv, fun _ h1 => ⟨(hinv.2 h0 h1).1, rfl⟩⟩
  | moveTagRow i j =>
    have h0 : 0 ≤ s.currentRow := hok rfl
    simp only [step]
    by_cases hlen : i < s.editorTags.length ∧ j < s.editorTags.length
    · have e1 : editorMoveRow s i j =
          update_image_list_model_tags
            { s with editorTags :=
                (s.editorTags.eraseIdx i).insertIdx j (s.editorTags.get ⟨i, hlen.1⟩) } := by
        unfold editorMoveRow
        rw [dif_pos hlen]
      rw [e1]
      have hw := writeback_spec s
        ((s.editorTags.eraseIdx i).insertIdx j (s.editorTags.get ⟨i, hlen.1⟩)) hinv h0
      exact ⟨hw.1, fun _ h1 => hw.2 h1⟩
    · have e1 : editorMoveRow s i j = (s, []) := by
        unfold editorMoveRow
        rw [dif_neg hlen]
      rw [e1]
      exact ⟨hinv, fun _ h1 => ⟨(hinv.2 h0 h1).1, rfl⟩⟩
  | loadDir path i =>
    refine ⟨tagSyncInv_load_directory fs s path i hinv.1, ?_⟩
    intro hmut
    exact Bool.noConfusion hmut
  | dialogLoadDir r =>
    by_cases hr : r = ""
    · subst hr
      simp only [step]
      rw [select_and_load_directory_cancel]
      exact ⟨hinv, fun hmut => Bool.noConfusion hmut⟩
    · simp only [step]
      rw [select_and_load_directory_of_path fs s r hr]
      exact ⟨tagSyncInv_load_directory fs s r 0 hinv.1, fun hmut => Bool.noConfusion hmut⟩
  | windowClose g w =>
    exact ⟨hinv, fun hmut => Bool.noConfusion hmut⟩

/-- Witness for C1 at a concrete editor mutation: editing the tags of the
selected image 0 preserves the invariant and flushes the new list into the
Image List Model at index 0 within the same event. -/
theorem c1_tag_sync_witness :
    (tagSyncInv stateW ∧ eventOk stateW (Event.editTags ["x"]) ∧
      stateW.currentRow < (stateW.images.length : Int)) ∧
    tagSyncInv (step fsW stateW (Event.editTags ["x"])).1 ∧
    (((step fsW stateW (Event.editTags ["x"])).1.images.get?
        stateW.currentRow.toNat).map ImageEntry.tags) =
      some (step fsW stateW (Event.editTags ["x"])).1.editorTags := by
  have h := c1_tag_sync_invariant.2 fsW stateW (Event.editTags ["x"])
    (by decide) (by decide)
  exact ⟨⟨by decide, by decide, by decide⟩, h.1, (h.2 (by decide) (by decide)).1⟩

end TagGui

namespace TagGui

/-- Counterexample to C5: not every settings read is preceded by a presence
check.  With an empty settings store, `restore` still reads `window_state`
(line 150 of `main_window.py`) and `font_size` (line 140, via
`set_font_size`) although `contains` is false for both keys. -/
theorem c5_counterexample_unguarded_reads :
    (Settings.containsKey (initState emptySettings).settings "window_state" = false ∧
      Effect.readSetting "window_state" ∈
        (restore fsW (initState emptySettings)).2.1) ∧
    (Settings.containsKey (initState emptySettings).settings "font_size" = false ∧
      Effect.readSetting "font_size" ∈
        (restore fsW (initState emptySettings)).2.1) := by
  decide

/-- C5 as amended: every settings read of `select_and_load_directory` is of
`directory_path` and occurs only when a `contains` check succeeded; every
settings read of `restore` is either guarded in the same way (`geometry`,
`image_index`, `directory_path`) or is one of the two unguarded reads of
`window_state` and `font_size`, which happen with no presence check
(`window_state` is read on every restore, and `set_font_size` always reads
`font_size`). -/
theorem c5_amended_guarded_reads :
    (∀ (fs : FileSystem) (s : AppState) (r k : String),
      Effect.readSetting k ∈ (select_and_load_directory fs s r).2 →
      k = "directory_path" ∧ s.settings.containsKey "directory_path" = true) ∧
    (∀ (fs : FileSystem) (s : AppState) (k : String),
      Effect.readSetting k ∈ (restore fs s).2.1 →
      k = "window_state" ∨ k = "font_size" ∨
        (k = "geometry" ∧ s.settings.containsKey "geometry" = true) ∨
        (k = "image_index" ∧ s.settings.containsKey "image_index" = true) ∨
        (k = "directory_path" ∧ s.settings.containsKey "directory_path" = true)) ∧
    (∀ (fs : FileSystem) (s : AppState),
      Effect.readSetting "window_state" ∈ (restore fs s).2.1) ∧
    (∀ s : AppState, Effect.readSetting "font_size" ∈ (set_font_size s).2.1) :=
  ⟨select_and_load_directory_read_char, restore_read_char,
   restore_reads_window_state, set_font_size_read⟩

/-- Witness for the amended C5: in a restore from a store holding
`image_index`, the observed `image_index` read is classified as a guarded
read. -/
theorem c5_amended_witness :
    Effect.readSetting "image_index" ∈
      (restore fsW (initState settingsRestoreW)).2.1 ∧
    ("image_index" = "window_state" ∨ "image_index" = "font_size" ∨
      ("image_index" = "geometry" ∧
        (initState settingsRestoreW).settings.containsKey "geometry" = true) ∨
      ("image_index" = "image_index" ∧
        (initState settingsRestoreW).settings.containsKey "image_index" = true) ∨
      ("image_index" = "directory_path" ∧
        (initState settingsRestoreW).settings.containsKey "directory_path" = true)) :=
  ⟨by decide,
   c5_amended_guarded_reads.2.1 fsW (initState settingsRestoreW) "image_index"
     (by decide)⟩

end TagGui
